import Mathlib

/-!
Verification of the LOWA DIGI SENS protocol scripts.

Shallow embedding of the pure protocol logic of this repository:
checksum computation (`digisens_interface._calculate_checksum`,
`XOR_CRC_calculation` in several scripts, and the unpadded variant in
`digisens_n17.py`), frame encoding (`create_lowa_msg`,
`DigiSensInterface._build_command`), response parsing
(`_parse_weight_response`, `parse_weight_response`, `parse_gd_response`,
the bulk `gl` loop of `read_mux_weights`), the response-classification
part of `_send_command` and `read_all_weights_gd`, and the event traces
of the bus-polling drivers (`read_multiple_muxes_single_port`,
`read_two_muxes.main`).

Python strings are modelled as `List Char` (ordinal = `Char.toNat`, which
coincides with the transmitted byte for the ASCII data these scripts
exchange; `serial` would reject non-ASCII frames).  Python `float` values
of weight fields are modelled as exact rationals; the decimal-literal
grammar accepted by `float` (optional sign, digits, decimal point,
exponent) is modelled, while `inf`/`nan` and underscore separators are
outside the protocol's data and are not modelled.
-/

/-- Characters stripped by Python `str.strip()` (ASCII whitespace). -/
def pyspace (c : Char) : Bool :=
  c = ' ' || c = '\t' || c = '\n' || c = '\x0b' || c = '\x0c' || c = '\r'

/-- Python `s.strip()`: drop leading and trailing whitespace. -/
def pystrip (s : List Char) : List Char :=
  ((s.dropWhile pyspace).reverse.dropWhile pyspace).reverse

/-- Decimal digit list of a natural number, as Python `str(n)`. -/
def natToDec (n : Nat) : List Char := Nat.toDigits 10 n

/-- Uppercase hexadecimal digit list, as Python `hex(n)[2:].upper()`. -/
def natToHexUpper (n : Nat) : List Char := (Nat.toDigits 16 n).map Char.toUpper

/-- Python `s.zfill(2)` on an unsigned digit string: left-pad with `'0'`
to width at least 2.  Also models the paddings `f"{n:02d}"`/`f"{n:02X}"`. -/
def zfill2 (s : List Char) : List Char :=
  if s.length < 2 then List.replicate (2 - s.length) '0' ++ s else s

/-- Python `f"{n:02d}"`. -/
def format02d (n : Nat) : List Char := zfill2 (natToDec n)

/-- XOR of the ordinal values of all characters (`ord` in Python). -/
def xorFold (msg : List Char) : Nat := msg.foldl (fun a c => a ^^^ c.toNat) 0

/-- Decimal value of a digit string (used to read back a length field). -/
def decValue (s : List Char) : Nat := s.foldl (fun a c => a * 10 + (c.toNat - 48)) 0

/-- `digisens_interface.DigiSensInterface._calculate_checksum`: XOR all
character ordinals and render as `f"{checksum:02X}"`. -/
def _calculate_checksum (message : List Char) : List Char :=
  zfill2 (natToHexUpper (xorFold message))

/-- `XOR_CRC_calculation` as defined identically in `read_two_muxes_simple.py`,
`get_weights_gd_fixed.py`, `get_weights_gd_single_port.py`, `verify_protocol.py`:
XOR the bytes, `str(hex(checksum)[2:]).upper().zfill(2)`. -/
def XOR_CRC_calculation (msg : List Char) : List Char :=
  zfill2 (natToHexUpper (xorFold msg))

/-- `XOR_CRC_calculation` from `digisens_n17.py`: identical XOR but rendered
`str(hex(checksum)[2:]).upper()` with NO `.zfill(2)` padding.  (That file
XORs the UTF-8 bytes of `msg.encode()`, which for the ASCII protocol
strings coincide with the character ordinals.) -/
def XOR_CRC_calculation_n17 (msg : List Char) : List Char :=
  natToHexUpper (xorFold msg)

/-- `create_lowa_msg(head, uid, command, data)` as defined identically in
`read_two_muxes_simple.py`, `read_two_muxes_multiport.py`,
`get_weights_gd_fixed.py`, `get_weights_gd_single_port.py` and as
`create_lowa_msg_OLD` in `verify_protocol.py`:
`c_length = str(len(head + "00" + command + uid + data))`;
`msg = head + c_length.zfill(2) + command + uid + data`;
append `XOR_CRC_calculation(msg)` and `"\r"`. -/
def create_lowa_msg (head uid command data : List Char) : List Char :=
  let c_length := natToDec (head ++ ['0', '0'] ++ command ++ uid ++ data).length
  let msg := head ++ zfill2 c_length ++ command ++ uid ++ data
  msg ++ XOR_CRC_calculation msg ++ ['\r']

/-- Data portion built by `DigiSensInterface._build_command`:
`f"{mux_id}{channel:02d}"` when a channel is given, else `mux_id`. -/
def build_command_data (mux_id : List Char) (channel : Option Nat) : List Char :=
  match channel with
  | some ch => mux_id ++ format02d ch
  | none => mux_id

/-- `DigiSensInterface._build_command(command, mux_id, channel, use_extended)`:
header `'#'`/`'@'`, `length = len(command) + len(data) + 2`,
`message = f"{prefix}{length:02d}{command}{data}"`, then checksum and CR. -/
def build_command (command mux_id : List Char) (channel : Option Nat)
    (use_extended : Bool) : List Char :=
  let pfx : List Char := if use_extended then ['#'] else ['@']
  let data := build_command_data mux_id channel
  let length := command.length + data.length + 2
  let message := pfx ++ format02d length ++ command ++ data
  message ++ _calculate_checksum message ++ ['\r']

/-- Digits-to-value for a decimal digit string (`int`-style accumulation,
used inside the float model). -/
def natOfDigits (s : List Char) : Nat := s.foldl (fun a c => a * 10 + (c.toNat - 48)) 0

/-- Exact value of a parsed decimal literal `sgn * ip.fp * 10^e`. -/
def ratOfParts (sgn : Int) (ip fp : List Char) (e : Int) : Rat :=
  mkRat (sgn * (natOfDigits (ip ++ fp) : Int) * 10 ^ e.toNat) (10 ^ (fp.length + (-e).toNat))

/-- Model of Python `float(s)` on decimal literals: optional surrounding
whitespace, optional sign, digits with optional decimal point, optional
exponent; `none` exactly when `float` raises `ValueError` (for the
decimal-literal fragment; `inf`/`nan`/underscores are not modelled). -/
def pyFloat? (s0 : List Char) : Option Rat :=
  let s := pystrip s0
  let sgn : Int := match s with | '-' :: _ => -1 | _ => 1
  let s1 : List Char := match s with | '+' :: t => t | '-' :: t => t | _ => s
  let ip := s1.takeWhile Char.isDigit
  let r1 := s1.dropWhile Char.isDigit
  let fp : List Char := match r1 with | '.' :: t => t.takeWhile Char.isDigit | _ => []
  let r2 : List Char := match r1 with | '.' :: t => t.dropWhile Char.isDigit | _ => r1
  if ip = [] ∧ fp = [] then none else
  match r2 with
  | [] => some (ratOfParts sgn ip fp 0)
  | c :: t =>
    if c = 'e' ∨ c = 'E' then
      let es : Int := match t with | '-' :: _ => -1 | _ => 1
      let t1 : List Char := match t with | '+' :: u => u | '-' :: u => u | _ => t
      let ed := t1.takeWhile Char.isDigit
      if ed = [] ∨ t1.dropWhile Char.isDigit ≠ [] then none
      else some (ratOfParts sgn ip fp (es * (natOfDigits ed : Int)))
    else none

/-- `StatusFlag` enum of `digisens_interface.py` (it has no Unknown member). -/
inductive StatusFlag
  | OK
  | MOTION
  | NOT_CONNECTED
  | EEPROM_ERROR
deriving DecidableEq, Repr

/-- `StatusFlag(c)` lookup by value: `none` models the `ValueError` branch. -/
def statusFlag? (c : Char) : Option StatusFlag :=
  if c = ' ' then some .OK
  else if c = 'M' then some .MOTION
  else if c = 'C' then some .NOT_CONNECTED
  else if c = 'E' then some .EEPROM_ERROR
  else none

/-- `WeightReading` dataclass of `digisens_interface.py`. -/
structure WeightReading where
  weight : Rat
  status : StatusFlag
  raw_response : List Char
deriving DecidableEq, Repr

/-- Python exceptions that the modelled code can raise. -/
inductive PyExn
  | indexError
  | valueError
  | timeoutError
deriving DecidableEq, Repr

deriving instance DecidableEq for Except

/-- `DigiSensInterface._parse_weight_response(response)`:
`data = response[3:]`, `sign = data[0]`, `weight_str = data[1:9].strip()`,
`status_char = data[9]`, `weight = float(weight_str)` (negated on `'-'`),
unknown status bytes default to `StatusFlag.OK`.  Index accesses and the
`float` call can raise, which the function does not catch. -/
def _parse_weight_response (response : List Char) : Except PyExn WeightReading :=
  let data := response.drop 3
  match data.get? 0 with
  | none => .error .indexError
  | some sign =>
    let weight_str := pystrip ((data.drop 1).take 8)
    match data.get? 9 with
    | none => .error .indexError
    | some status_char =>
      match pyFloat? weight_str with
      | none => .error .valueError
      | some w =>
        let weight := if sign = '-' then -w else w
        let status := (statusFlag? status_char).getD StatusFlag.OK
        .ok ⟨weight, status, response⟩

/-- Response handling of `DigiSensInterface._send_command` (assuming an open
port): the accumulated bytes of `read_until(b'\r')` are decoded and
`.strip()`ped; `TimeoutError` is raised exactly when the stripped string is
empty, otherwise the stripped string is returned. -/
def _send_command (raw : List Char) : Except PyExn (List Char) :=
  let response := pystrip raw
  if response = [] then .error .timeoutError else .ok response

/-- Response path of `DigiSensInterface.get_weight`: `_send_command` composed
with `_parse_weight_response`, both exceptions propagating to the caller. -/
def get_weight_on_reply (raw : List Char) : Except PyExn WeightReading :=
  match _send_command raw with
  | .error e => .error e
  | .ok response => _parse_weight_response response

/-- Status strings used by the script-level parsers
(`read_two_muxes_simple.py`, `get_weights_gd*.py`).  The constructors name
the literal strings the code stores; the interpolated exception text of
`f"PARSE_ERROR({e})"` / `f"ERROR({e})"` is abstracted away. -/
inductive PStatus
  | OK
  | MOTION
  | NOT_CONNECTED
  | EEPROM_ERROR
  | UNKNOWN
  | NO_RESPONSE
  | PARSE_ERROR
deriving DecidableEq, Repr

/-- `status_map.get(status_char, 'UNKNOWN')` of the script-level parsers. -/
def status_map_get (c : Char) : PStatus :=
  if c = ' ' then .OK
  else if c = 'M' then .MOTION
  else if c = 'C' then .NOT_CONNECTED
  else if c = 'E' then .EEPROM_ERROR
  else .UNKNOWN

/-- One parsed reading of the script-level parsers:
`(channel, weight, status, valid)`. -/
abbrev ScriptReading := Nat × Rat × PStatus × Bool

/-- `parse_weight_response(response, channel_idx)` of
`read_two_muxes_simple.py` / `read_two_muxes_multiport.py`:
`sign = response[0]`, `weight_str = response[1:9].strip()`,
`status_char = response[9]`; a `float` failure is caught and replaced by
`weight = 0.0`, `status_char = 'E'`; the index accesses are outside the
`try` and can raise. -/
def parse_weight_response (response : List Char) (channel_idx : Nat) :
    Except PyExn ScriptReading :=
  match response.get? 0 with
  | none => .error .indexError
  | some sign =>
    let weight_str := pystrip ((response.drop 1).take 8)
    match response.get? 9 with
    | none => .error .indexError
    | some c =>
      let wsc : Rat × Char :=
        match pyFloat? weight_str with
        | some v => (if sign = '-' then -v else v, c)
        | none => (0, 'E')
      .ok (channel_idx, wsc.1, status_map_get wsc.2, wsc.2 = ' ')

/-- Bulk `gl` parsing loop of `read_mux_weights` in
`read_two_muxes_multiport.py` / `read_two_muxes_simple.py`:
`for i in range(0, len(data), 11)`, keep only the 11-character blocks,
`channel_idx = i // 11`; an exception from `parse_weight_response` would
propagate.  The `fuel` argument only bounds the recursion (as in
`Nat.toDigitsCore`); it is called with `fuel = len(data)`, which always
suffices since every iteration consumes 11 characters. -/
def read_mux_weights_loop (fuel i : Nat) (l : List Char) : Except PyExn (List ScriptReading) :=
  match fuel with
  | 0 => .ok []
  | fuel + 1 =>
    if l.length < 11 then .ok []
    else
      match parse_weight_response (l.take 11) (i / 11) with
      | .error e => .error e
      | .ok r =>
        match read_mux_weights_loop fuel (i + 11) (l.drop 11) with
        | .error e => .error e
        | .ok rest => .ok (r :: rest)

/-- Body parsing of `read_mux_weights` applied to `data = mux_answer[3:-3]`. -/
def read_mux_weights_parse (data : List Char) : Except PyExn (List ScriptReading) :=
  read_mux_weights_loop data.length 0 data

/-- Full `read_mux_weights` response handling: strip the prefix (1), the
length (2), the checksum (2) and CR (1), then run the block loop. -/
def read_mux_weights_body (mux_answer : List Char) : List Char :=
  (mux_answer.drop 3).take (mux_answer.length - 6)

/-- `parse_gd_response(response, channel_idx)` of `get_weights_gd_fixed.py` /
`get_weights_gd_single_port.py`: `data = response[3:]`, `sign = data[0]`,
`weight_str = data[1:10].strip()`, `status_char = data[10]`; the whole body
is wrapped in `try/except`, any failure yielding
`(channel_idx, 0.0, "PARSE_ERROR(...)", False)`. -/
def parse_gd_response (response : List Char) (channel_idx : Nat) : ScriptReading :=
  let attempt : Option ScriptReading := do
    let data := response.drop 3
    let sign ← data.get? 0
    let weight_str := pystrip ((data.drop 1).take 9)
    let status_char ← data.get? 10
    let w ← pyFloat? weight_str
    let weight := if sign = '-' then -w else w
    pure (channel_idx, weight, status_map_get status_char, status_char = ' ')
  attempt.getD (channel_idx, 0, .PARSE_ERROR, false)

/-- Per-channel reply classification in `read_all_weights_gd`
(`get_weights_gd_fixed.py`) and `read_all_weights_gd_single_port`:
`if response and len(response) >= 14` parse, else append
`(channel, 0.0, "NO_RESPONSE", False)`. -/
def gd_channel_result (response : List Char) (channel : Nat) : ScriptReading :=
  if response ≠ [] ∧ 14 ≤ response.length then parse_gd_response response channel
  else (channel, 0, .NO_RESPONSE, false)

/-- Observable transport events of the polling drivers: a frame write, a
blocking read, or a `time.sleep`.  Sleep durations are modelled as exact
integers (milliseconds: the scripts' float defaults 0.05 s and 0.1 s are
50 and 100); only their ordering and addition matter to the claims. -/
inductive Ev
  | write (frame : List Char)
  | read
  | sleep (d : Int)
deriving DecidableEq, Repr

/-- Events of one channel iteration of `read_all_weights_gd_single_port`:
write `create_lowa_msg(head, mux_id, "gd", str(channel) + "0")`, read the
reply, then `time.sleep(inter_command_delay)` when the delay is positive. -/
def gd_channel_events (head : Char) (uid : List Char) (d : Int) (ch : Nat) : List Ev :=
  [.write (create_lowa_msg [head] uid "gd".toList (natToDec ch ++ ['0'])), .read]
    ++ (if 0 < d then [.sleep d] else [])

/-- Events of `read_all_weights_gd_single_port(ser, mux_id, num_channels,
use_extended, inter_command_delay)` on its non-raising path. -/
def read_all_weights_gd_single_port_events (uid : List Char) (numChannels : Nat)
    (use_extended : Bool) (d : Int) : List Ev :=
  (List.range numChannels).flatMap
    (gd_channel_events (if use_extended then '#' else '@') uid d)

/-- Events of `read_multiple_muxes_single_port(port, mux_configs, ...)`:
each MUX is read with 8 channels and `use_extended = len(mux_id) == 16`;
`time.sleep(inter_mux_delay)` runs between MUXes (not after the last) when
that delay is positive. -/
def read_multiple_muxes_single_port_events (mux_ids : List (List Char))
    (dCmd dMux : Int) : List Ev :=
  match mux_ids with
  | [] => []
  | m :: rest =>
    read_all_weights_gd_single_port_events m 8 (m.length == 16) dCmd
      ++ ((if 0 < dMux ∧ rest ≠ [] then [Ev.sleep dMux] else [])
      ++ read_multiple_muxes_single_port_events rest dCmd dMux)

/-- Events of one `DigiSensInterface.get_all_weights` call: a single `gl`
exchange (no sleeps anywhere on this path). -/
def get_all_weights_events (mux_id : List Char) (use_extended : Bool) : List Ev :=
  [.write (build_command "gl".toList mux_id none use_extended), .read]

/-- Events of `read_two_muxes.main`: `get_all_weights(mux1)` directly
followed by `get_all_weights(mux2)`, addressing mode detected by
`len(mux_id) == 16`; no sleep of any kind between the two exchanges. -/
def read_two_muxes_main_events (mux1 mux2 : List Char) : List Ev :=
  get_all_weights_events mux1 (mux1.length == 16)
    ++ get_all_weights_events mux2 (mux2.length == 16)

/-- Accumulator step for slack between exchanges: a write resets the
accumulated idle time, a sleep adds to it once some write has occurred. -/
def gapStep : Option Int → Ev → Option Int
  | _, Ev.write _ => some 0
  | acc, Ev.read => acc
  | none, Ev.sleep _ => none
  | some a, Ev.sleep t => some (a + t)

/-- Idle time recorded when an event is processed: a write that follows an
earlier write records the idle time accumulated since it. -/
def gapOut : Option Int → Ev → List Int
  | some a, Ev.write _ => [a]
  | _, _ => []

/-- All idle times between consecutive writes of a trace, given the
running accumulator. -/
def gapsAux : List Ev → Option Int → List Int
  | [], _ => []
  | e :: rest, acc => gapOut acc e ++ gapsAux rest (gapStep acc e)

/-- Final accumulator after a trace. -/
def endSt (tr : List Ev) (acc : Option Int) : Option Int := tr.foldl gapStep acc

/-- Idle time between every pair of consecutive writes of a trace. -/
def interWriteGaps (tr : List Ev) : List Int := gapsAux tr none

/-- The frames written by a trace, in order. -/
def writesOf (tr : List Ev) : List (List Char) :=
  tr.filterMap (fun e => match e with | .write f => some f | _ => none)

/-- Every character produced by `Nat.digitChar` is ASCII. -/
theorem digitChar_ascii (n : Nat) : (Nat.digitChar n).toNat < 128 := by
  rcases Nat.lt_or_ge n 16 with h | h
  · have hb : ∀ m < 16, (Nat.digitChar m).toNat < 128 := by decide
    exact hb n h
  · unfold Nat.digitChar
    repeat rw [if_neg (by omega)]
    decide

/-- `Nat.toDigitsCore` only prepends ASCII digit characters. -/
theorem toDigitsCore_ascii (b : Nat) :
    ∀ (f n : Nat) (ds : List Char), (∀ c ∈ ds, c.toNat < 128) →
      ∀ c ∈ Nat.toDigitsCore b f n ds, c.toNat < 128 := by
  intro f
  induction f with
  | zero =>
    intro n ds hds c hc
    simp only [Nat.toDigitsCore] at hc
    exact hds c hc
  | succ f ih =>
    intro n ds hds c hc
    simp only [Nat.toDigitsCore] at hc
    by_cases hz : n / b = 0
    · rw [if_pos hz] at hc
      rcases List.mem_cons.mp hc with hc | hc
      · subst hc; exact digitChar_ascii _
      · exact hds c hc
    · rw [if_neg hz] at hc
      refine ih (n / b) (Nat.digitChar (n % b) :: ds) ?_ c hc
      intro c' hc'
      rcases List.mem_cons.mp hc' with hc' | hc'
      · subst hc'; exact digitChar_ascii _
      · exact hds c' hc'

/-- Characters of `str(n)` are ASCII. -/
theorem natToDec_ascii (n : Nat) : ∀ c ∈ natToDec n, c.toNat < 128 := by
  intro c hc
  exact toDigitsCore_ascii 10 (n + 1) n [] (by simp) c hc

/-- Characters of `f"{n:02d}"` are ASCII. -/
theorem format02d_ascii (n : Nat) : ∀ c ∈ format02d n, c.toNat < 128 := by
  intro c hc
  unfold format02d zfill2 at hc
  split at hc
  · rcases List.mem_append.mp hc with hc | hc
    · rw [List.eq_of_mem_replicate hc]; decide
    · exact natToDec_ascii n c hc
  · exact natToDec_ascii n c hc

/-- XOR-folding ASCII characters stays below 128. -/
theorem xorFold_lt (l : List Char) (h : ∀ c ∈ l, c.toNat < 128) : xorFold l < 128 := by
  suffices hgen : ∀ (l : List Char) (a : Nat), a < 128 → (∀ c ∈ l, c.toNat < 128) →
      l.foldl (fun a c => a ^^^ c.toNat) a < 128 by
    exact hgen l 0 (by norm_num) h
  intro l
  induction l with
  | nil => intro a ha _; simpa using ha
  | cons c l ih =>
    intro a ha hl
    simp only [List.foldl_cons]
    refine ih _ ?_ (fun c' hc' => hl c' (List.mem_cons_of_mem c hc'))
    have h1 : a < 2 ^ 7 := ha
    have h2 : c.toNat < 2 ^ 7 := hl c (List.mem_cons_self c l)
    exact Nat.xor_lt_two_pow h1 h2

set_option maxRecDepth 4000 in
/-- A 2-hex-digit checksum rendering has length exactly 2 below 256. -/
theorem checksum_length_two : ∀ n < 256, (zfill2 (natToHexUpper n)).length = 2 := by decide

set_option maxRecDepth 4000 in
/-- Every character of a 2-hex-digit checksum rendering below 256 is an
uppercase hexadecimal digit. -/
theorem checksum_chars_hex : ∀ n < 256, ∀ c ∈ zfill2 (natToHexUpper n),
    c ∈ ['0','1','2','3','4','5','6','7','8','9','A','B','C','D','E','F'] := by decide

set_option maxRecDepth 4000 in
/-- Reading the rendered checksum back as hexadecimal recovers the value. -/
theorem checksum_value : ∀ n < 256,
    (zfill2 (natToHexUpper n)).foldl
      (fun a c => a * 16 + (if c.toNat ≤ 57 then c.toNat - 48 else c.toNat - 55)) 0 = n := by
  decide

/-- `f"{n:02d}"` has length exactly 2 below 100. -/
theorem format02d_length_two : ∀ n < 100, (format02d n).length = 2 := by decide

/-- Reading a 2-digit decimal field back recovers the value below 100. -/
theorem decValue_format02d : ∀ n < 100, decValue (format02d n) = n := by decide

/-- C1: encoding a frame with Standard header `'@'`, address `"123"`,
command `"sz"` and data `"0"` produces exactly the ASCII string
`"@09sz123040"` followed by a single CR terminator. -/
theorem C1_reference_transcript :
    create_lowa_msg "@".toList "123".toList "sz".toList "0".toList
      = "@09sz123040\r".toList := by decide

/-- C2 counterexample: for header `'@'`, address `"123"`, command `"sz"`,
data `"0"` the encoded frame's length field reads 9, while the character
count of command+address+data plus 2 is 8. -/
theorem C2_length_field_counterexample :
    decValue (((create_lowa_msg "@".toList "123".toList "sz".toList "0".toList).drop 1).take 2) = 9
    ∧ ("sz".toList ++ "123".toList ++ "0".toList).length + 2 = 8
    ∧ (9 : Nat) ≠ 8 := by decide

/-- Frames built by `_build_command` decompose as header, length field,
command, data, checksum, terminator. -/
theorem build_command_shape (command mux_id : List Char) (channel : Option Nat) (ext : Bool) :
    build_command command mux_id channel ext
      = (if ext then ['#'] else ['@'])
        ++ (format02d (command.length + (build_command_data mux_id channel).length + 2)
        ++ (command ++ (build_command_data mux_id channel
        ++ (_calculate_checksum ((if ext then ['#'] else ['@'])
              ++ format02d (command.length + (build_command_data mux_id channel).length + 2)
              ++ command ++ build_command_data mux_id channel)
        ++ ['\r'])))) := by
  simp [build_command, List.append_assoc]

/-- Frames built by `create_lowa_msg` decompose as header, length field,
command, uid, data, checksum, terminator. -/
theorem create_lowa_msg_shape (head uid command data : List Char) :
    create_lowa_msg head uid command data
      = head ++ (zfill2 (natToDec (head ++ ['0', '0'] ++ command ++ uid ++ data).length)
        ++ (command ++ (uid ++ (data
        ++ (XOR_CRC_calculation (head
              ++ zfill2 (natToDec (head ++ ['0', '0'] ++ command ++ uid ++ data).length)
              ++ command ++ uid ++ data)
        ++ ['\r']))))) := by
  simp [create_lowa_msg, List.append_assoc]

/-- Reading back the 2-digit length field of a framed message. -/
theorem decValue_length_field (pfx body : List Char) (n : Nat)
    (hp : pfx.length = 1) (h : n < 100) :
    decValue (((pfx ++ (format02d n ++ body)).drop 1).take 2) = n := by
  obtain ⟨a, rfl⟩ := List.length_eq_one.mp hp
  simp only [List.singleton_append, List.drop_one, List.tail_cons]
  rw [List.take_left' (format02d_length_two _ h)]
  exact decValue_format02d _ h

/-- C2 amended: `_build_command`'s length field equals
`len(command) + len(data) + 2` (data = address plus rendered channel), but
`create_lowa_msg`'s length field equals `len(command+address+data) + 3`,
counting the header and length placeholder instead of only the checksum. -/
theorem C2_length_field_amended :
    (∀ (command mux_id : List Char) (channel : Option Nat) (use_extended : Bool),
      command.length + (build_command_data mux_id channel).length + 2 < 100 →
      decValue (((build_command command mux_id channel use_extended).drop 1).take 2)
        = command.length + (build_command_data mux_id channel).length + 2)
    ∧ (∀ head uid command data : List Char,
      head.length = 1 → command.length + uid.length + data.length + 3 < 100 →
      decValue (((create_lowa_msg head uid command data).drop 1).take 2)
        = command.length + uid.length + data.length + 3) := by
  constructor
  · intro command mux_id channel ext h
    rw [build_command_shape]
    exact decValue_length_field _ _ _ (by cases ext <;> rfl) h
  · intro head uid command data hhead h
    have hlen : (head ++ ['0', '0'] ++ command ++ uid ++ data).length
        = command.length + uid.length + data.length + 3 := by
      simp only [List.length_append, hhead, List.length_cons, List.length_nil]
      omega
    rw [create_lowa_msg_shape, hlen,
      show zfill2 (natToDec (command.length + uid.length + data.length + 3))
        = format02d (command.length + uid.length + data.length + 3) from rfl]
    exact decValue_length_field _ _ _ hhead h

/-- C2 witness: the amended length rule at concrete frames; both encoders
produce a length field of 9 on these inputs. -/
theorem C2_length_field_witness :
    decValue (((build_command "gw".toList "123".toList (some 0) false).drop 1).take 2) = 9
    ∧ decValue (((create_lowa_msg "@".toList "123".toList "sz".toList "0".toList).drop 1).take 2) = 9 :=
  ⟨C2_length_field_amended.1 "gw".toList "123".toList (some 0) false (by decide),
   C2_length_field_amended.2 "@".toList "123".toList "sz".toList "0".toList (by decide) (by decide)⟩

/-- C8: evaluation at the failing input `"AB"` (XOR value 3): the
`digisens_n17.py` checksum renders the single unpadded digit `"3"`,
while `_calculate_checksum` and the `zfill(2)` variants render `"03"`
as the claim requires. -/
theorem C8_n17_checksum_unpadded :
    XOR_CRC_calculation_n17 "AB".toList = "3".toList
    ∧ (XOR_CRC_calculation_n17 "AB".toList).length ≠ 2
    ∧ XOR_CRC_calculation "AB".toList = "03".toList
    ∧ _calculate_checksum "AB".toList = "03".toList := by decide

/-- C4 counterexample: the status byte `'X'` is outside the mapping, yet
`_parse_weight_response` returns a reading with status `OK` — the silent
fallback to OK the claim excludes (and `StatusFlag` has no Unknown member
at all). -/
theorem C4_unknown_status_counterexample :
    statusFlag? 'X' = none
    ∧ _parse_weight_response "@13 0002.130X00".toList
        = .ok ⟨mkRat 213 100, StatusFlag.OK, "@13 0002.130X00".toList⟩ := by decide

/-- C4 amended: the script-level block parsers — `parse_weight_response`
and `parse_gd_response` alike — map an unmapped status byte to the
`UNKNOWN` variant and still return a reading (not a failure), but
`digisens_interface`'s `_parse_weight_response` silently defaults an
unmapped status byte to `OK`. -/
theorem C4_unknown_status_amended :
    (∀ (block : List Char) (ch : Nat) (s c : Char) (w : Rat),
      block.get? 0 = some s → block.get? 9 = some c →
      status_map_get c = .UNKNOWN →
      pyFloat? (pystrip ((block.drop 1).take 8)) = some w →
      parse_weight_response block ch
        = .ok (ch, (if s = '-' then -w else w), .UNKNOWN, false))
    ∧ (∀ (response : List Char) (ch : Nat) (s c : Char) (w : Rat),
      (response.drop 3).get? 0 = some s → (response.drop 3).get? 10 = some c →
      status_map_get c = .UNKNOWN →
      pyFloat? (pystrip (((response.drop 3).drop 1).take 9)) = some w →
      parse_gd_response response ch
        = (ch, (if s = '-' then -w else w), .UNKNOWN, false))
    ∧ (∀ (response : List Char) (s c : Char) (w : Rat),
      (response.drop 3).get? 0 = some s → (response.drop 3).get? 9 = some c →
      statusFlag? c = none →
      pyFloat? (pystrip (((response.drop 3).drop 1).take 8)) = some w →
      _parse_weight_response response
        = .ok ⟨(if s = '-' then -w else w), StatusFlag.OK, response⟩) := by
  refine ⟨?_, ?_, ?_⟩
  · intro block ch s c w h0 h9 hmap hF
    have hc : c ≠ ' ' := by
      intro h
      rw [h] at hmap
      simp [status_map_get] at hmap
    simp only [parse_weight_response, h0, h9, hF, hmap]
    simp [hc]
  · intro response ch s c w h0 h10 hmap hF
    have hc : c ≠ ' ' := by
      intro h
      rw [h] at hmap
      simp [status_map_get] at hmap
    simp only [parse_gd_response, h0, h10, hF, hmap, Option.bind_eq_bind,
      Option.some_bind]
    simp [hc]
  · intro response s c w h0 h9 hmap hF
    simp only [_parse_weight_response, h0, h9, hF, hmap, Option.getD_none]

/-- C4 witness: the amended behavior at concrete inputs with the unmapped
status bytes `'Q'` (both script parsers) and `'Z'`. -/
theorem C4_unknown_status_witness :
    parse_weight_response "-0001.250Q".toList 4
      = .ok (4, -(mkRat 5 4), PStatus.UNKNOWN, false)
    ∧ parse_gd_response "#14 00012.450Q7F".toList 0
      = (0, mkRat 249 20, PStatus.UNKNOWN, false)
    ∧ _parse_weight_response "@13-0001.250Z00".toList
      = .ok ⟨-(mkRat 5 4), StatusFlag.OK, "@13-0001.250Z00".toList⟩ :=
  ⟨C4_unknown_status_amended.1 "-0001.250Q".toList 4 '-' 'Q' (mkRat 5 4)
      (by decide) (by decide) (by decide) (by decide),
   C4_unknown_status_amended.2.1 "#14 00012.450Q7F".toList 0 ' ' 'Q' (mkRat 249 20)
      (by decide) (by decide) (by decide) (by decide),
   C4_unknown_status_amended.2.2 "@13-0001.250Z00".toList '-' 'Z' (mkRat 5 4)
      (by decide) (by decide) (by decide) (by decide)⟩

/-- C5 counterexample: on a block whose weight field `"ABCDEFGH"` is not
parseable, `_parse_weight_response` raises `ValueError` to its caller
instead of returning a placeholder reading. -/
theorem C5_parse_failure_counterexample :
    pyFloat? "ABCDEFGH".toList = none
    ∧ _parse_weight_response "@13 ABCDEFGH 00".toList = .error .valueError := by decide

/-- C5 amended: the script-level `parse_weight_response` converts an
unparseable weight field into the placeholder reading
`(weight 0.0, status 'E' → EEPROM_ERROR, invalid)` without raising, but
`digisens_interface`'s `_parse_weight_response` propagates the
`ValueError`. -/
theorem C5_parse_failure_amended :
    (∀ (block : List Char) (ch : Nat) (s c : Char),
      block.get? 0 = some s → block.get? 9 = some c →
      pyFloat? (pystrip ((block.drop 1).take 8)) = none →
      parse_weight_response block ch = .ok (ch, 0, .EEPROM_ERROR, false))
    ∧ (∀ (response : List Char) (s c : Char),
      (response.drop 3).get? 0 = some s → (response.drop 3).get? 9 = some c →
      pyFloat? (pystrip (((response.drop 3).drop 1).take 8)) = none →
      _parse_weight_response response = .error .valueError) := by
  constructor
  · intro block ch s c h0 h9 hF
    simp only [parse_weight_response, h0, h9, hF]
    simp [status_map_get]
  · intro response s c h0 h9 hF
    simp only [_parse_weight_response, h0, h9, hF]

/-- C5 witness: the amended behavior at a concrete block with garbage
weight field. -/
theorem C5_parse_failure_witness :
    parse_weight_response "-ABCDEFGHX".toList 2
      = .ok (2, 0, PStatus.EEPROM_ERROR, false)
    ∧ _parse_weight_response "@13-ABCDEFGHX00".toList = .error .valueError :=
  ⟨C5_parse_failure_amended.1 "-ABCDEFGHX".toList 2 '-' 'X'
      (by decide) (by decide) (by decide),
   C5_parse_failure_amended.2 "@13-ABCDEFGHX00".toList '-' 'X'
      (by decide) (by decide) (by decide)⟩

/-- C6 counterexample: the accumulated bytes `"abc"` contain no terminator,
yet `_send_command` returns them as a normal response instead of a Timeout
failure — Timeout is decided by emptiness after stripping, not by
terminator arrival. -/
theorem C6_timeout_counterexample :
    '\r' ∉ "abc".toList
    ∧ _send_command "abc".toList = .ok "abc".toList := by decide

/-- C6 amended: `_send_command` raises `TimeoutError` exactly when the
accumulated bytes strip to the empty string (so unterminated bytes are
returned as a normal reply and a bare terminator counts as Timeout), and
`read_all_weights_gd` substitutes the single `NO_RESPONSE` placeholder —
not a distinct ShortResponse failure — whenever the reply is shorter than
the 14-character minimum. -/
theorem C6_timeout_amended :
    (∀ raw : List Char, _send_command raw = .error .timeoutError ↔ pystrip raw = [])
    ∧ (∀ raw : List Char, pystrip raw ≠ [] → _send_command raw = .ok (pystrip raw))
    ∧ (∀ (response : List Char) (ch : Nat), response.length < 14 →
        gd_channel_result response ch = (ch, 0, .NO_RESPONSE, false)) := by
  refine ⟨?_, ?_, ?_⟩
  · intro raw
    constructor
    · intro h
      by_contra hne
      simp [_send_command, hne] at h
    · intro h
      simp [_send_command, h]
  · intro raw h
    simp [_send_command, h]
  · intro response ch h
    have : ¬(response ≠ [] ∧ 14 ≤ response.length) := by
      intro hcontra
      omega
    simp [gd_channel_result, this]

/-- C6 witness: a bare terminator is classified as Timeout, unterminated
bytes are returned as a reply, and a 7-character reply becomes the
`NO_RESPONSE` placeholder. -/
theorem C6_timeout_witness :
    _send_command "\r".toList = .error .timeoutError
    ∧ _send_command "abcd".toList = .ok (pystrip "abcd".toList)
    ∧ gd_channel_result "#14 001".toList 3 = (3, 0, .NO_RESPONSE, false) :=
  ⟨(C6_timeout_amended.1 "\r".toList).mpr (by decide),
   C6_timeout_amended.2.1 "abcd".toList (by decide),
   C6_timeout_amended.2.2 "#14 001".toList 3 (by decide)⟩

/-- C10: for every reply whose stripped body is non-empty and shorter than
13 characters, the fixed-offset accesses of `_parse_weight_response` are
out of bounds and `get_weight` propagates the `IndexError` instead of
returning a reading or a typed failure. -/
theorem C10_short_reply_index_error :
    ∀ raw : List Char, 1 ≤ (pystrip raw).length → (pystrip raw).length ≤ 12 →
      get_weight_on_reply raw = .error .indexError := by
  intro raw h1 h2
  have hne : pystrip raw ≠ [] := by
    intro h
    rw [h] at h1
    simp at h1
  simp only [get_weight_on_reply, _send_command, if_neg hne]
  have hdrop : ((pystrip raw).drop 3).length ≤ 9 := by
    rw [List.length_drop]
    omega
  have h9 : ((pystrip raw).drop 3).get? 9 = none :=
    List.get?_eq_none.mpr (by omega)
  cases h0 : ((pystrip raw).drop 3).get? 0 with
  | none => simp only [_parse_weight_response, h0]
  | some s => simp only [_parse_weight_response, h0, h9]

/-- C10 witness: the 4-character reply `"@131"` (after terminator
stripping) makes `get_weight` raise `IndexError`. -/
theorem C10_short_reply_witness :
    1 ≤ (pystrip "@131\r".toList).length
    ∧ (pystrip "@131\r".toList).length ≤ 12
    ∧ get_weight_on_reply "@131\r".toList = .error .indexError :=
  ⟨by decide, by decide, C10_short_reply_index_error "@131\r".toList (by decide) (by decide)⟩

/-- On a full 11-character block `parse_weight_response` always succeeds
and tags the reading with the given channel index. -/
theorem parse_weight_response_full (l : List Char) (ch : Nat) (h : l.length = 11) :
    ∃ r : ScriptReading, parse_weight_response l ch = .ok r ∧ r.1 = ch := by
  have h0 : l.get? 0 = some (l.get ⟨0, by omega⟩) := List.get?_eq_get (by omega)
  have h9 : l.get? 9 = some (l.get ⟨9, by omega⟩) := List.get?_eq_get (by omega)
  rcases hq : parse_weight_response l ch with e | r
  · cases hF : pyFloat? (pystrip ((l.drop 1).take 8)) <;>
      (simp only [parse_weight_response, h0, h9, hF] at hq
       exact Except.noConfusion hq)
  · refine ⟨r, rfl, ?_⟩
    cases hF : pyFloat? (pystrip ((l.drop 1).take 8)) <;>
      (simp only [parse_weight_response, h0, h9, hF, Except.ok.injEq] at hq
       rw [← hq])

/-- The bulk loop consumes the body in 11-character steps: starting at
offset `11 * k` with sufficient fuel, it returns one reading per full
block, with channel indices `k, k+1, ...` in order. -/
theorem read_mux_weights_loop_spec :
    ∀ (fuel : Nat) (l : List Char), l.length ≤ fuel → ∀ k : Nat,
      ∃ rs, read_mux_weights_loop fuel (11 * k) l = .ok rs
        ∧ rs.map (fun r => r.1) = List.range' k (l.length / 11) := by
  intro fuel
  induction fuel with
  | zero =>
    intro l hl k
    refine ⟨[], rfl, ?_⟩
    have hz : l.length / 11 = 0 := Nat.div_eq_of_lt (by omega)
    simp [hz]
  | succ fuel ih =>
    intro l hl k
    by_cases h : l.length < 11
    · refine ⟨[], ?_, ?_⟩
      · simp only [read_mux_weights_loop, if_pos h]
      · have hz : l.length / 11 = 0 := Nat.div_eq_of_lt (by omega)
        simp [hz]
    · have h11 : 11 ≤ l.length := le_of_not_lt h
      have htake : (l.take 11).length = 11 := by
        rw [List.length_take]
        omega
      obtain ⟨r, hp, hr1⟩ := parse_weight_response_full (l.take 11) (11 * k / 11) htake
      obtain ⟨rs, hrs, hmap⟩ :=
        ih (l.drop 11) (by rw [List.length_drop]; omega) (k + 1)
      refine ⟨r :: rs, ?_, ?_⟩
      · simp only [read_mux_weights_loop, if_neg h, hp,
          show 11 * k + 11 = 11 * (k + 1) by ring, hrs]
      · have hk : 11 * k / 11 = k := Nat.mul_div_cancel_left k (by norm_num)
        have hdiv : l.length / 11 = ((l.drop 11).length / 11) + 1 := by
          rw [List.length_drop, Nat.div_eq_sub_div (by norm_num) h11]
        rw [List.map_cons, hmap, hr1, hk, hdiv, List.range'_succ]

/-- C3 amended: the bulk `gl` body parser iterates in consecutive
non-overlapping 11-character windows (sign 1 + weight 8 + status 1 + one
trailing character), never raises, yields exactly `len(body) / 11` readings
— so a body of 8 full 10-char blocks (80 chars) yields only 7 readings — a
trailing partial window is dropped silently, and each reading's channel
index equals its window position divided by 11. -/
theorem C3_bulk_parse_amended :
    ∀ data : List Char, ∃ rs, read_mux_weights_parse data = .ok rs
      ∧ rs.map (fun r => r.1) = List.range (data.length / 11) := by
  intro data
  obtain ⟨rs, hrs, hmap⟩ := read_mux_weights_loop_spec data.length data le_rfl 0
  refine ⟨rs, ?_, ?_⟩
  · simpa only [read_mux_weights_parse, Nat.mul_zero] using hrs
  · rw [hmap, List.range_eq_range']

/-- C3 counterexample: a body consisting of exactly 8 concatenated valid
10-character blocks (80 characters) yields 7 readings, not the 8 the claim
requires. -/
theorem C3_block_width_counterexample :
    (List.flatten (List.replicate 8 " 0001.000 ".toList)).length = 80
    ∧ (read_mux_weights_parse
        (List.flatten (List.replicate 8 " 0001.000 ".toList))).toOption.map List.length
      = some 7
    ∧ (7 : Nat) ≠ 8 := by decide

/-- C7: for every valid (header, address, command, data) whose ASCII
address length matches the header mode (3 for `'@'`, 16 for `'#'`) and
whose frame fits the 2-digit length field, decoding the encoded frame
(stripping the 3-character header+length prefix and the trailing 2
checksum characters before the terminator) recovers the header as the
first transmitted character and the address exactly, and recomputing the
checksum over the transmitted prefix equals the transmitted 2-character
checksum field. -/
theorem C7_roundtrip :
    ∀ (command mux_id : List Char) (channel : Option Nat) (use_extended : Bool),
      mux_id.length = (if use_extended then 16 else 3) →
      (∀ c ∈ command, c.toNat < 128) →
      (∀ c ∈ mux_id, c.toNat < 128) →
      command.length + (build_command_data mux_id channel).length + 2 < 100 →
      ((build_command command mux_id channel use_extended).dropLast.get? 0
          = some (if use_extended then '#' else '@'))
      ∧ ((((build_command command mux_id channel use_extended).dropLast.drop 3).take
            ((build_command command mux_id channel use_extended).dropLast.length - 5)).drop
            command.length).take mux_id.length = mux_id
      ∧ ((build_command command mux_id channel use_extended).dropLast.drop
            ((build_command command mux_id channel use_extended).dropLast.length - 2)
          = _calculate_checksum
              ((build_command command mux_id channel use_extended).dropLast.take
                ((build_command command mux_id channel use_extended).dropLast.length - 2))) := by
  intro command mux_id channel ext hmux hcmd hmuxa hlt
  have hpfxlen : (if ext then (['#'] : List Char) else ['@']).length = 1 := by
    cases ext <;> rfl
  have hfmtlen :
      (format02d (command.length + (build_command_data mux_id channel).length + 2)).length = 2 :=
    format02d_length_two _ hlt
  have hdata_ascii : ∀ c ∈ build_command_data mux_id channel, c.toNat < 128 := by
    intro c hc
    cases channel with
    | none => exact hmuxa c hc
    | some ch =>
      simp only [build_command_data] at hc
      rcases List.mem_append.mp hc with h | h
      · exact hmuxa c h
      · exact format02d_ascii ch c h
  have hmsg_ascii : ∀ c ∈ (((if ext then (['#'] : List Char) else ['@'])
      ++ format02d (command.length + (build_command_data mux_id channel).length + 2))
      ++ command) ++ build_command_data mux_id channel, c.toNat < 128 := by
    intro c hc
    rcases List.mem_append.mp hc with hc | hc
    · rcases List.mem_append.mp hc with hc | hc
      · rcases List.mem_append.mp hc with hc | hc
        · cases ext <;>
            (simp at hc
             subst hc
             decide)
        · exact format02d_ascii _ c hc
      · exact hcmd c hc
    · exact hdata_ascii c hc
  have hckslen : (_calculate_checksum ((((if ext then (['#'] : List Char) else ['@'])
      ++ format02d (command.length + (build_command_data mux_id channel).length + 2))
      ++ command) ++ build_command_data mux_id channel)).length = 2 := by
    have hxor := xorFold_lt _ hmsg_ascii
    exact checksum_length_two _ (by omega)
  have h1 : build_command command mux_id channel ext
      = (((((if ext then (['#'] : List Char) else ['@'])
          ++ format02d (command.length + (build_command_data mux_id channel).length + 2))
          ++ command) ++ build_command_data mux_id channel)
          ++ _calculate_checksum ((((if ext then (['#'] : List Char) else ['@'])
              ++ format02d (command.length + (build_command_data mux_id channel).length + 2))
              ++ command) ++ build_command_data mux_id channel))
          ++ ['\r'] := by
    simp [build_command, List.append_assoc]
  have h2 : (build_command command mux_id channel ext).dropLast
      = ((((if ext then (['#'] : List Char) else ['@'])
          ++ format02d (command.length + (build_command_data mux_id channel).length + 2))
          ++ command) ++ build_command_data mux_id channel)
          ++ _calculate_checksum ((((if ext then (['#'] : List Char) else ['@'])
              ++ format02d (command.length + (build_command_data mux_id channel).length + 2))
              ++ command) ++ build_command_data mux_id channel) := by
    rw [h1, List.dropLast_concat]
  have htlen : (build_command command mux_id channel ext).dropLast.length
      = command.length + (build_command_data mux_id channel).length + 5 := by
    rw [h2]
    simp only [List.length_append, hpfxlen, hfmtlen, hckslen]
    omega
  refine ⟨?_, ?_, ?_⟩
  · rw [h2]
    cases ext <;> rfl
  · have hidx : (build_command command mux_id channel ext).dropLast.length - 5
        = (command ++ build_command_data mux_id channel).length := by
      rw [htlen]
      simp only [List.length_append]
      omega
    have e2 : (build_command command mux_id channel ext).dropLast
        = ((if ext then (['#'] : List Char) else ['@'])
            ++ format02d (command.length + (build_command_data mux_id channel).length + 2))
          ++ ((command ++ build_command_data mux_id channel)
          ++ _calculate_checksum ((((if ext then (['#'] : List Char) else ['@'])
              ++ format02d (command.length + (build_command_data mux_id channel).length + 2))
              ++ command) ++ build_command_data mux_id channel)) := by
      rw [h2]
      simp [List.append_assoc]
    have h3 : ((if ext then (['#'] : List Char) else ['@'])
        ++ format02d (command.length + (build_command_data mux_id channel).length + 2)).length
        = 3 := by
      simp only [List.length_append, hpfxlen, hfmtlen]
    rw [hidx, e2, List.drop_left' h3, List.take_left, List.drop_left]
    cases channel with
    | none => exact List.take_length mux_id
    | some ch =>
      simp only [build_command_data]
      exact List.take_left mux_id (format02d ch)
  · have hidx : (build_command command mux_id channel ext).dropLast.length - 2
        = ((((if ext then (['#'] : List Char) else ['@'])
            ++ format02d (command.length + (build_command_data mux_id channel).length + 2))
            ++ command) ++ build_command_data mux_id channel).length := by
      rw [htlen]
      simp only [List.length_append, hpfxlen, hfmtlen]
      omega
    rw [hidx, h2, List.drop_left, List.take_left]

/-- C7 witness: the round trip at the concrete `gm` request for Standard
address `"123"`. -/
theorem C7_roundtrip_witness :
    ((build_command "gm".toList "123".toList none false).dropLast.get? 0 = some '@')
    ∧ ((((build_command "gm".toList "123".toList none false).dropLast.drop 3).take
          ((build_command "gm".toList "123".toList none false).dropLast.length - 5)).drop
          "gm".toList.length).take "123".toList.length = "123".toList
    ∧ ((build_command "gm".toList "123".toList none false).dropLast.drop
          ((build_command "gm".toList "123".toList none false).dropLast.length - 2)
        = _calculate_checksum
            ((build_command "gm".toList "123".toList none false).dropLast.take
              ((build_command "gm".toList "123".toList none false).dropLast.length - 2))) :=
  C7_roundtrip "gm".toList "123".toList none false (by decide) (by decide) (by decide) (by decide)

/-- Gap accounting splits over trace concatenation. -/
theorem gapsAux_append (l1 l2 : List Ev) (a : Option Int) :
    gapsAux (l1 ++ l2) a = gapsAux l1 a ++ gapsAux l2 (endSt l1 a) := by
  induction l1 generalizing a with
  | nil => simp [gapsAux, endSt]
  | cons e rest ih => simp [gapsAux, endSt, List.foldl_cons, ih, List.append_assoc]

/-- The final accumulator splits over trace concatenation. -/
theorem endSt_append (l1 l2 : List Ev) (a : Option Int) :
    endSt (l1 ++ l2) a = endSt l2 (endSt l1 a) := by
  simp [endSt, List.foldl_append]

/-- With a positive inter-command delay, one channel iteration is the
three events write, read, sleep. -/
theorem gd_channel_events_pos (head : Char) (uid : List Char) (d : Int) (h : 0 < d)
    (ch : Nat) :
    gd_channel_events head uid d ch
      = [Ev.write (create_lowa_msg [head] uid "gd".toList (natToDec ch ++ ['0'])),
         Ev.read, Ev.sleep d] := by
  simp [gd_channel_events, if_pos h]

/-- Every inter-write gap inside a channel-block trace equals the
inter-command delay, except that the first write closes the incoming
accumulator. -/
theorem gaps_gd_blocks (head : Char) (uid : List Char) (d : Int) (h : 0 < d) :
    ∀ (xs : List Nat) (acc : Option Int) (g : Int),
      g ∈ gapsAux (xs.flatMap (gd_channel_events head uid d)) acc →
      g = d ∨ acc = some g := by
  intro xs
  induction xs with
  | nil =>
    intro acc g hg
    simp [gapsAux] at hg
  | cons x xs ih =>
    intro acc g hg
    rw [List.flatMap_cons, gd_channel_events_pos head uid d h] at hg
    cases acc with
    | none =>
      simp only [List.cons_append, List.nil_append, gapsAux, gapStep, gapOut,
        zero_add] at hg
      rcases ih (some d) g hg with hg | hg
      · exact Or.inl hg
      · exact Or.inl (Option.some.inj hg).symm
    | some a =>
      simp only [List.cons_append, List.nil_append, gapsAux, gapStep, gapOut,
        zero_add, List.mem_cons] at hg
      rcases hg with rfl | hg
      · exact Or.inr rfl
      · rcases ih (some d) g hg with hg | hg
        · exact Or.inl hg
        · exact Or.inl (Option.some.inj hg).symm

/-- A non-empty channel-block trace always leaves the accumulator at the
inter-command delay (its last event is the sleep). -/
theorem endSt_gd_blocks (head : Char) (uid : List Char) (d : Int) (h : 0 < d) :
    ∀ (xs : List Nat) (acc : Option Int), xs ≠ [] →
      endSt (xs.flatMap (gd_channel_events head uid d)) acc = some d := by
  intro xs
  induction xs with
  | nil => intro acc h'; exact absurd rfl h'
  | cons x xs ih =>
    intro acc _
    rw [List.flatMap_cons, gd_channel_events_pos head uid d h, endSt_append]
    by_cases hxs : xs = []
    · subst hxs
      simp [endSt, gapStep, List.foldl_cons]
    · exact ih _ hxs

/-- Every inter-write gap of the shared-port multi-MUX driver is at least
the inter-command delay, for any incoming accumulator that is itself at
least that delay. -/
theorem gaps_muxes_aux (dCmd dMux : Int) (h : 0 < dCmd) :
    ∀ (ms : List (List Char)) (acc : Option Int),
      (∀ x, acc = some x → dCmd ≤ x) →
      ∀ g ∈ gapsAux (read_multiple_muxes_single_port_events ms dCmd dMux) acc, dCmd ≤ g := by
  intro ms
  induction ms with
  | nil =>
    intro acc hacc g hg
    simp [read_multiple_muxes_single_port_events, gapsAux] at hg
  | cons m rest ih =>
    intro acc hacc g hg
    rw [read_multiple_muxes_single_port_events, gapsAux_append] at hg
    rcases List.mem_append.mp hg with hg | hg
    · rw [read_all_weights_gd_single_port_events] at hg
      rcases gaps_gd_blocks _ _ _ h _ _ _ hg with heq | hacc'
      · exact heq.ge
      · exact hacc g hacc'
    · have hend : endSt (read_all_weights_gd_single_port_events m 8 (m.length == 16) dCmd) acc
          = some dCmd := by
        rw [read_all_weights_gd_single_port_events]
        exact endSt_gd_blocks _ _ _ h _ _ (by decide)
      rw [hend, gapsAux_append] at hg
      rcases List.mem_append.mp hg with hg | hg
      · by_cases hc : 0 < dMux ∧ rest ≠ []
        · rw [if_pos hc] at hg
          simp [gapsAux, gapOut] at hg
        · rw [if_neg hc] at hg
          simp [gapsAux] at hg
      · by_cases hc : 0 < dMux ∧ rest ≠ []
        · rw [if_pos hc] at hg
          have hend2 : endSt [Ev.sleep dMux] (some dCmd) = some (dCmd + dMux) := by
            simp [endSt, gapStep]
          rw [hend2] at hg
          refine ih (some (dCmd + dMux)) ?_ g hg
          intro x hx
          injection hx with hx
          rw [← hx]
          linarith
        · rw [if_neg hc] at hg
          simp only [endSt, List.foldl_nil] at hg
          refine ih (some dCmd) ?_ g hg
          intro x hx
          injection hx with hx
          rw [← hx]

/-- `writesOf` splits over trace concatenation. -/
theorem writesOf_append (l1 l2 : List Ev) :
    writesOf (l1 ++ l2) = writesOf l1 ++ writesOf l2 := by
  simp [writesOf, List.filterMap_append]

/-- One channel iteration writes exactly its `gd` frame. -/
theorem writesOf_gd_channel (head : Char) (uid : List Char) (d : Int) (ch : Nat) :
    writesOf (gd_channel_events head uid d ch)
      = [create_lowa_msg [head] uid "gd".toList (natToDec ch ++ ['0'])] := by
  by_cases h : 0 < d <;> simp [writesOf, gd_channel_events, h, List.filterMap_cons]

/-- A channel-block trace writes its frames in channel order. -/
theorem writesOf_gd_blocks (head : Char) (uid : List Char) (d : Int) :
    ∀ xs : List Nat, writesOf (xs.flatMap (gd_channel_events head uid d))
      = xs.map (fun ch => create_lowa_msg [head] uid "gd".toList (natToDec ch ++ ['0'])) := by
  intro xs
  induction xs with
  | nil => simp [writesOf]
  | cons x xs ih =>
    rw [List.flatMap_cons, writesOf_append, writesOf_gd_channel, ih, List.map_cons,
      List.singleton_append]

/-- C9 amended: in the shared-port driver
`read_multiple_muxes_single_port` (positive inter-command delay,
transport that does not raise), exchanges
execute strictly in caller-specified order and between every pair of
consecutive exchanges — including across MUX boundaries — at least the
inter-command delay elapses; the `digisens_interface` path used by
`read_two_muxes.main` enforces no settle delay at all. -/
theorem C9_settle_delay_amended :
    ∀ (mux_ids : List (List Char)) (dCmd dMux : Int), 0 < dCmd →
      (∀ g ∈ interWriteGaps (read_multiple_muxes_single_port_events mux_ids dCmd dMux),
        dCmd ≤ g)
      ∧ writesOf (read_multiple_muxes_single_port_events mux_ids dCmd dMux)
          = mux_ids.flatMap (fun m => (List.range 8).map (fun ch =>
              create_lowa_msg [if m.length == 16 then '#' else '@'] m "gd".toList
                (natToDec ch ++ ['0']))) := by
  intro ms dCmd dMux h
  constructor
  · exact gaps_muxes_aux dCmd dMux h ms none (fun x hx => Option.noConfusion hx)
  · induction ms with
    | nil => rfl
    | cons m rest ih =>
      rw [read_multiple_muxes_single_port_events, writesOf_append, writesOf_append,
        List.flatMap_cons]
      have hsleep : writesOf (if 0 < dMux ∧ rest ≠ [] then [Ev.sleep dMux] else []) = [] := by
        by_cases hc : 0 < dMux ∧ rest ≠ [] <;> simp [writesOf, hc]
      rw [hsleep, List.nil_append, ih, read_all_weights_gd_single_port_events,
        writesOf_gd_blocks]

/-- C9 counterexample: `read_two_muxes.main` performs its two devices'
exchanges back to back — the only inter-write gap is 0 ms, below any
positive configured settle delay such as the repository's default 50 ms. -/
theorem C9_no_settle_delay_counterexample :
    interWriteGaps (read_two_muxes_main_events "123".toList "456".toList) = [0]
    ∧ ¬ ((50 : Int) ≤ 0) := by
  constructor
  · decide
  · decide

/-- C9 witness: the amended guarantee at two concrete MUX ids with the
repository's default delays 50 ms and 100 ms: the cross-MUX gap 150 ms is
a recorded gap and meets the bound, and the 16 frames appear in caller
order. -/
theorem C9_settle_delay_witness :
    (150 : Int) ∈ interWriteGaps (read_multiple_muxes_single_port_events
        ["123".toList, "0120220429103142".toList] 50 100)
    ∧ (50 : Int) ≤ 150
    ∧ writesOf (read_multiple_muxes_single_port_events
        ["123".toList, "0120220429103142".toList] 50 100)
      = (["123".toList, "0120220429103142".toList]).flatMap (fun m =>
          (List.range 8).map (fun ch =>
            create_lowa_msg [if m.length == 16 then '#' else '@'] m "gd".toList
              (natToDec ch ++ ['0']))) :=
  ⟨by decide,
   (C9_settle_delay_amended ["123".toList, "0120220429103142".toList]
      50 100 (by decide)).1 150 (by decide),
   (C9_settle_delay_amended ["123".toList, "0120220429103142".toList]
      50 100 (by decide)).2⟩
